import Mathlib

/-!
A shallow embedding, in Lean 4, of the authoritative soccer-match server
(`SoccerRoom`): the goal adjudicator, input pipeline, jump edge-trigger,
player-ball contact resolver, ball boundary enforcer and end-game winner
rule, together with theorems settling the specified properties of each.

Physics quantities are modelled over `ℚ` (the source computes over IEEE
doubles; all constants and the arithmetic of the properties at issue are
exactly representable), timestamps in milliseconds over `ℤ`, ticks and
request ids over `ℕ`.
-/

namespace Soccer

/-! ### Constants (from `schema/PhysicsConstants.js` and the room header) -/

namespace PHYSICS

def TICK_RATE : ℚ := 60
def FIXED_TIMESTEP : ℚ := 1 / 60
def GRAVITY : ℚ := 20
def MOVE_SPEED : ℚ := 8
def JUMP_FORCE : ℚ := 8
def DOUBLE_JUMP_MULTIPLIER : ℚ := 0.8
def MAX_JUMPS : ℕ := 2
def GROUND_Y : ℚ := 0.1
def GROUND_CHECK_EPSILON : ℚ := 0.05
def PLAYER_RADIUS : ℚ := 0.6
def BALL_RADIUS : ℚ := 0.8
def BALL_MASS : ℚ := 3.0
def GROUND_RESTITUTION : ℚ := 0.6
def WALL_RESTITUTION : ℚ := 0.3
def GOAL_RESTITUTION : ℚ := 1.5
def POST_RESTITUTION : ℚ := 0.3
def WALL_HEIGHT : ℚ := 10
def ARENA_HALF_WIDTH : ℚ := 14.5
def ARENA_HALF_DEPTH : ℚ := 9.5
def GOAL_WIDTH : ℚ := 5.0
def GOAL_HEIGHT : ℚ := 4.0
def GOAL_LINE_X : ℚ := 10.8
def PLAYER_BALL_RESTITUTION : ℚ := 0.85
def PLAYER_BALL_VELOCITY_TRANSFER : ℚ := 0.65
def PLAYER_BALL_IMPULSE_MIN : ℚ := 5
def PLAYER_BALL_APPROACH_BOOST : ℚ := 1.4
def COLLISION_VELOCITY_THRESHOLD : ℚ := 3
def BALL_STABILITY_VELOCITY_THRESHOLD : ℚ := 1.5
def BALL_STABILITY_HEIGHT_MIN : ℚ := 0.3
def BALL_STABILITY_DAMPING : ℚ := 0.92
def BALL_STABILITY_IMPULSE_CAP : ℚ := 2.0
def COLLISION_LIFT : ℚ := 5.0
def COLLISION_LIFT_GIANT : ℚ := 3.0

end PHYSICS

/-- `GOAL_COOLDOWN = 5000` ms, from the `SoccerRoom` module header. -/
def GOAL_COOLDOWN : ℤ := 5000

/-! ### Vectors and the ball's kinematic state -/

structure Vec3 where
  x : ℚ
  y : ℚ
  z : ℚ
deriving DecidableEq, Repr

structure BallState where
  pos : Vec3
  vel : Vec3
deriving DecidableEq, Repr

/-! ### Ball boundary enforcement (`physicsUpdate`, step 4)

The source reads `pos`/`vel` once, tests every clause against the *original*
values, writes clamped components into `correctedPos`/`correctedVel`
(later clauses overwriting earlier ones where they touch the same
component), and commits the corrected pair.  `ballInGoalZone` is the
source's `inGoalZone` test. -/

def ballMaxX : ℚ := PHYSICS.ARENA_HALF_WIDTH - PHYSICS.BALL_RADIUS
def ballMaxZ : ℚ := PHYSICS.ARENA_HALF_DEPTH - PHYSICS.BALL_RADIUS
def goalHalfWidth : ℚ := PHYSICS.GOAL_WIDTH / 2 - PHYSICS.BALL_RADIUS
def goalHeightClamp : ℚ := PHYSICS.GOAL_HEIGHT - PHYSICS.BALL_RADIUS
def goalBackX : ℚ := 17.0
def goalBackClampX : ℚ := goalBackX - PHYSICS.BALL_RADIUS
def goalPostZ : ℚ := goalHalfWidth + 0.3

def ballInGoalZone (p : Vec3) : Prop :=
  |p.z| < goalHalfWidth ∧ p.y < goalHeightClamp ∧ |p.x| > PHYSICS.GOAL_LINE_X

instance (p : Vec3) : Decidable (ballInGoalZone p) := by
  unfold ballInGoalZone; infer_instance

/-- The source's symmetric clamp pattern `if (pos.c > hi) pos.c = hi; else if
(pos.c < -hi) pos.c = -hi`. -/
def clampSym (x hi : ℚ) : ℚ :=
  if x > hi then hi else if x < -hi then -hi else x

/-- The matching velocity reflection: on the high side the component becomes
`-|v| * rest`, on the low side `|v| * rest`. -/
def reflectSym (x v hi rest : ℚ) : ℚ :=
  if x > hi then -|v| * rest else if x < -hi then |v| * rest else v

def enforceBallBounds (s : BallState) : BallState :=
  let pos := s.pos
  let vel := s.vel
  -- Z axis boundaries (always enforced)
  let pz1 := clampSym pos.z ballMaxZ
  let vz1 := reflectSym pos.z vel.z ballMaxZ PHYSICS.WALL_RESTITUTION
  -- X axis boundaries, zone-aware
  let px := if ballInGoalZone pos then clampSym pos.x goalBackClampX
            else clampSym pos.x ballMaxX
  let vx := if ballInGoalZone pos then reflectSym pos.x vel.x goalBackClampX PHYSICS.GOAL_RESTITUTION
            else reflectSym pos.x vel.x ballMaxX PHYSICS.WALL_RESTITUTION
  -- goal side posts: inside the goal zone a second Z clamp overwrites the first
  let pz2 := if ballInGoalZone pos then
               (if pos.z > goalPostZ then goalPostZ
                else if pos.z < -goalPostZ then -goalPostZ else pz1)
             else pz1
  let vz2 := if ballInGoalZone pos then
               (if pos.z > goalPostZ then -|vel.z| * PHYSICS.POST_RESTITUTION
                else if pos.z < -goalPostZ then |vel.z| * PHYSICS.POST_RESTITUTION else vz1)
             else vz1
  -- floor, then (separate clause) ceiling
  let py1 := if pos.y < PHYSICS.BALL_RADIUS then PHYSICS.BALL_RADIUS else pos.y
  let vy1 := if pos.y < PHYSICS.BALL_RADIUS then |vel.y| * PHYSICS.GROUND_RESTITUTION else vel.y
  let py2 := if pos.y > PHYSICS.WALL_HEIGHT - PHYSICS.BALL_RADIUS
             then PHYSICS.WALL_HEIGHT - PHYSICS.BALL_RADIUS else py1
  let vy2 := if pos.y > PHYSICS.WALL_HEIGHT - PHYSICS.BALL_RADIUS then -|vel.y| * 0.1 else vy1
  ⟨⟨px, py2, pz2⟩, ⟨vx, vy2, vz2⟩⟩

lemma clampSym_mem {x hi : ℚ} (h : 0 ≤ hi) :
    -hi ≤ clampSym x hi ∧ clampSym x hi ≤ hi := by
  unfold clampSym
  split_ifs with h1 h2
  · exact ⟨by linarith, le_refl _⟩
  · exact ⟨le_refl _, by linarith⟩
  · push_neg at h1 h2; exact ⟨h2, h1⟩

lemma clampSym_eq_of {x hi : ℚ} (h1 : x ≤ hi) (h2 : -hi ≤ x) : clampSym x hi = x := by
  unfold clampSym
  rw [if_neg (not_lt.mpr h1), if_neg (not_lt.mpr h2)]

lemma reflectSym_eq_of {x v hi rest : ℚ} (h1 : x ≤ hi) (h2 : -hi ≤ x) :
    reflectSym x v hi rest = v := by
  unfold reflectSym
  rw [if_neg (not_lt.mpr h1), if_neg (not_lt.mpr h2)]

lemma clampSym_abs_gt {x hi c : ℚ} (hx : |x| > c) (hc : c < hi) (hc0 : 0 ≤ c) :
    |clampSym x hi| > c := by
  unfold clampSym
  split_ifs with h1 h2
  · rwa [abs_of_nonneg (le_trans hc0 (le_of_lt hc))]
  · rw [abs_neg, abs_of_nonneg (le_trans hc0 (le_of_lt hc))]; exact hc
  · exact hx

/-- A ball state on which no boundary clause fires. -/
def BallSettled (s : BallState) : Prop :=
  s.pos.z ≤ ballMaxZ ∧ -ballMaxZ ≤ s.pos.z ∧
  (ballInGoalZone s.pos →
    s.pos.x ≤ goalBackClampX ∧ -goalBackClampX ≤ s.pos.x ∧
    s.pos.z ≤ goalPostZ ∧ -goalPostZ ≤ s.pos.z) ∧
  (¬ ballInGoalZone s.pos → s.pos.x ≤ ballMaxX ∧ -ballMaxX ≤ s.pos.x) ∧
  PHYSICS.BALL_RADIUS ≤ s.pos.y ∧ s.pos.y ≤ PHYSICS.WALL_HEIGHT - PHYSICS.BALL_RADIUS

lemma enforceBallBounds_of_settled (s : BallState) (h : BallSettled s) :
    enforceBallBounds s = s := by
  obtain ⟨hz1, hz2, hzone, hnozone, hy1, hy2⟩ := h
  unfold enforceBallBounds
  by_cases hg : ballInGoalZone s.pos
  · obtain ⟨hx1, hx2, hp1, hp2⟩ := hzone hg
    simp only [if_pos hg, if_neg (not_lt.mpr hp1), if_neg (not_lt.mpr hp2),
      if_neg (not_lt.mpr hy1), if_neg (not_lt.mpr hy2),
      clampSym_eq_of hz1 hz2, reflectSym_eq_of hz1 hz2,
      clampSym_eq_of hx1 hx2, reflectSym_eq_of hx1 hx2]
  · obtain ⟨hx1, hx2⟩ := hnozone hg
    simp only [if_neg hg, if_neg (not_lt.mpr hy1), if_neg (not_lt.mpr hy2),
      clampSym_eq_of hz1 hz2, reflectSym_eq_of hz1 hz2,
      clampSym_eq_of hx1 hx2, reflectSym_eq_of hx1 hx2]

/-- `BallSettled` only looks at the position. -/
lemma ballSettled_of_pos {p : Vec3} (v w : Vec3)
    (h : BallSettled ⟨p, v⟩) : BallSettled ⟨p, w⟩ := h

lemma enforceBallBounds_settled (s : BallState) : BallSettled (enforceBallBounds s) := by
  rcases s with ⟨⟨px, py, pz⟩, ⟨vx, vy, vz⟩⟩
  by_cases hg : ballInGoalZone ⟨px, py, pz⟩
  · -- inside the goal zone neither Z clamp can fire and the result stays in the zone
    have hz : -goalHalfWidth < pz ∧ pz < goalHalfWidth := abs_lt.mp hg.1
    have hy : py < goalHeightClamp := hg.2.1
    have hx : |px| > PHYSICS.GOAL_LINE_X := hg.2.2
    have hzw : goalHalfWidth < ballMaxZ := by
      simp only [goalHalfWidth, ballMaxZ, PHYSICS.GOAL_WIDTH, PHYSICS.BALL_RADIUS,
        PHYSICS.ARENA_HALF_DEPTH]
      norm_num
    have hz1 : pz ≤ ballMaxZ := by linarith [hz.2]
    have hz2 : -ballMaxZ ≤ pz := by linarith [hz.1]
    have hp1 : ¬ (pz > goalPostZ) := by
      simp only [goalPostZ]; push_neg; linarith [hz.2]
    have hp2 : ¬ (pz < -goalPostZ) := by
      simp only [goalPostZ]; push_neg; linarith [hz.1]
    have hyc : ¬ (py > PHYSICS.WALL_HEIGHT - PHYSICS.BALL_RADIUS) := by
      simp only [goalHeightClamp, PHYSICS.GOAL_HEIGHT, PHYSICS.BALL_RADIUS,
        PHYSICS.WALL_HEIGHT] at hy ⊢
      push_neg; linarith
    unfold enforceBallBounds
    simp only [if_pos hg, if_neg hp1, if_neg hp2, if_neg hyc, clampSym_eq_of hz1 hz2]
    -- remaining position: x clamped to the goal back, y floor-lifted, z unchanged
    have hxmem := @clampSym_mem px goalBackClampX
      (by simp only [goalBackClampX, goalBackX, PHYSICS.BALL_RADIUS]; norm_num)
    have hxline : |clampSym px goalBackClampX| > PHYSICS.GOAL_LINE_X := by
      refine clampSym_abs_gt hx ?_ ?_ <;>
        simp only [goalBackClampX, goalBackX, PHYSICS.BALL_RADIUS, PHYSICS.GOAL_LINE_X] <;>
        norm_num
    set py' := if py < PHYSICS.BALL_RADIUS then PHYSICS.BALL_RADIUS else py with hpy'
    have hy'flo : PHYSICS.BALL_RADIUS ≤ py' := by
      rw [hpy']; split_ifs with h1
      · exact le_refl _
      · push_neg at h1; exact h1
    have hy'zone : py' < goalHeightClamp := by
      rw [hpy']; split_ifs with h1
      · simp only [goalHeightClamp, PHYSICS.GOAL_HEIGHT, PHYSICS.BALL_RADIUS]; norm_num
      · exact hy
    have hy'cap : py' ≤ PHYSICS.WALL_HEIGHT - PHYSICS.BALL_RADIUS := by
      simp only [goalHeightClamp, PHYSICS.GOAL_HEIGHT, PHYSICS.BALL_RADIUS,
        PHYSICS.WALL_HEIGHT] at hy'zone ⊢
      linarith
    have hg' : ballInGoalZone ⟨clampSym px goalBackClampX, py', pz⟩ :=
      ⟨hg.1, hy'zone, hxline⟩
    exact ⟨hz1, hz2, fun _ => ⟨hxmem.2, hxmem.1, not_lt.mp hp1, not_lt.mp hp2⟩,
      fun hcon => absurd hg' hcon, hy'flo, hy'cap⟩
  · -- outside the goal zone: X is clamped to the arena envelope
    unfold enforceBallBounds
    simp only [if_neg hg]
    have hzmem := @clampSym_mem pz ballMaxZ
      (by simp only [ballMaxZ, PHYSICS.ARENA_HALF_DEPTH, PHYSICS.BALL_RADIUS]; norm_num)
    have hxmem := @clampSym_mem px ballMaxX
      (by simp only [ballMaxX, PHYSICS.ARENA_HALF_WIDTH, PHYSICS.BALL_RADIUS]; norm_num)
    set py1 := if py < PHYSICS.BALL_RADIUS then PHYSICS.BALL_RADIUS else py with hpy1
    set py' := if py > PHYSICS.WALL_HEIGHT - PHYSICS.BALL_RADIUS
               then PHYSICS.WALL_HEIGHT - PHYSICS.BALL_RADIUS else py1 with hpy'
    have hy'b : PHYSICS.BALL_RADIUS ≤ py' ∧ py' ≤ PHYSICS.WALL_HEIGHT - PHYSICS.BALL_RADIUS := by
      rw [hpy', hpy1]
      split_ifs with h1 h2
      · constructor
        · simp only [PHYSICS.BALL_RADIUS, PHYSICS.WALL_HEIGHT]; norm_num
        · exact le_refl _
      · constructor
        · exact le_refl _
        · simp only [PHYSICS.BALL_RADIUS, PHYSICS.WALL_HEIGHT]; norm_num
      · push_neg at h1 h2; exact ⟨h2, h1⟩
    refine ⟨hzmem.2, hzmem.1, ?_, fun _ => ⟨hxmem.2, hxmem.1⟩, hy'b.1, hy'b.2⟩
    intro hg'
    have hzlt := abs_lt.mp hg'.1
    have hxw : ballMaxX ≤ goalBackClampX := by
      simp only [ballMaxX, goalBackClampX, goalBackX, PHYSICS.ARENA_HALF_WIDTH,
        PHYSICS.BALL_RADIUS]
      norm_num
    have hpw : goalHalfWidth ≤ goalPostZ := by
      simp only [goalPostZ]; linarith
    exact ⟨le_trans hxmem.2 hxw, le_trans (neg_le_neg hxw) hxmem.1,
      le_of_lt (lt_of_lt_of_le hzlt.2 hpw), le_of_lt (lt_of_le_of_lt (neg_le_neg hpw) hzlt.1)⟩

/-- **C9.** The ball boundary enforcement pass is idempotent: running the zone
test, position clamps and velocity reflections twice in immediate succession
yields exactly the state obtained by running them once. -/
theorem enforceBallBounds_idempotent (s : BallState) :
    enforceBallBounds (enforceBallBounds s) = enforceBallBounds s :=
  enforceBallBounds_of_settled _ (enforceBallBounds_settled s)

/-! ### End-game winner rule (`endGame`) -/

inductive GameWinner where
  | red
  | blue
  | draw
deriving DecidableEq, Repr

/-- The `winner` computation of `endGame`: `draw` unless one score is strictly
greater. -/
def endGameWinner (redScore blueScore : ℕ) : GameWinner :=
  if redScore > blueScore then GameWinner.red
  else if blueScore > redScore then GameWinner.blue
  else GameWinner.draw

/-- **C10.** The game-over broadcast declares red the winner iff
`redScore > blueScore`, blue iff `blueScore > redScore`, and a draw exactly
when the scores are equal. -/
theorem endGameWinner_rule (r b : ℕ) :
    (endGameWinner r b = GameWinner.red ↔ r > b) ∧
    (endGameWinner r b = GameWinner.blue ↔ b > r) ∧
    (endGameWinner r b = GameWinner.draw ↔ r = b) := by
  unfold endGameWinner
  split_ifs with h1 h2 <;> refine ⟨?_, ?_, ?_⟩ <;> simp_all <;> omega

/-! ### Player vertical motion and the jump edge-trigger (`physicsUpdate`, step 1)

`verticalStep` embeds the per-player vertical slice of the physics step:
gravity, the grounded reset of `jumpCount`, the jump-request-id edge
trigger, Euler integration of `y`, and the floor snap. -/

structure VertState where
  y : ℚ
  vy : ℚ
  jumpCount : ℕ
  lastProcessedJumpRequestId : ℕ
  jumpMult : ℚ
deriving DecidableEq, Repr

/-- The jump count as seen by the jump check: zeroed when the player is on
the ground (`y ≤ GROUND_Y + GROUND_CHECK_EPSILON`) and falling or still after
gravity. -/
def groundResetCount (s : VertState) : ℕ :=
  if s.y ≤ PHYSICS.GROUND_Y + PHYSICS.GROUND_CHECK_EPSILON ∧
     s.vy - PHYSICS.GRAVITY * PHYSICS.FIXED_TIMESTEP ≤ 0
  then 0 else s.jumpCount

/-- The jump condition of the source: a strictly newer request id and fewer
than `MAX_JUMPS` jumps. -/
def jumpFires (s : VertState) (jumpRequestId : ℕ) : Prop :=
  jumpRequestId > s.lastProcessedJumpRequestId ∧ groundResetCount s < PHYSICS.MAX_JUMPS

instance (s : VertState) (r : ℕ) : Decidable (jumpFires s r) := by
  unfold jumpFires; infer_instance

def verticalStep (s : VertState) (jumpRequestId : ℕ) : VertState :=
  let vy1 := s.vy - PHYSICS.GRAVITY * PHYSICS.FIXED_TIMESTEP
  let c1 := groundResetCount s
  let vy2 := if jumpFires s jumpRequestId then
               (if c1 = 0 then PHYSICS.JUMP_FORCE * s.jumpMult
                else PHYSICS.JUMP_FORCE * s.jumpMult * PHYSICS.DOUBLE_JUMP_MULTIPLIER)
             else vy1
  let c2 := if jumpFires s jumpRequestId then c1 + 1 else c1
  let last2 := if jumpFires s jumpRequestId then jumpRequestId
               else s.lastProcessedJumpRequestId
  let newY := s.y + vy2 * PHYSICS.FIXED_TIMESTEP
  if newY < PHYSICS.GROUND_Y then ⟨PHYSICS.GROUND_Y, 0, 0, last2, s.jumpMult⟩
  else ⟨newY, vy2, c2, last2, s.jumpMult⟩

lemma verticalStep_of_not_fires (s : VertState) (rid : ℕ) (h : ¬ jumpFires s rid) :
    (verticalStep s rid).lastProcessedJumpRequestId = s.lastProcessedJumpRequestId := by
  simp only [verticalStep, h, if_false]
  split_ifs <;> rfl

/-- **C3.** A jump fires on a sim step iff the consumed input's
`jumpRequestId` strictly exceeds `lastProcessedJumpRequestId` and the
(ground-reset) `jumpCount` is below `MAX_JUMPS (2)`; on firing the id is
recorded, the count is incremented, and `vy` is set to
`JUMP_FORCE (8) × jumpMult`, scaled by `0.8` on a second jump; a second
input carrying the same `jumpRequestId` never fires a jump again. -/
theorem verticalStep_jump_edge_trigger (s : VertState) (rid : ℕ)
    (hy : PHYSICS.GROUND_Y ≤ s.y) (hm : 1 ≤ s.jumpMult) :
    ((verticalStep s rid).lastProcessedJumpRequestId ≠ s.lastProcessedJumpRequestId
      ↔ rid > s.lastProcessedJumpRequestId ∧ groundResetCount s < PHYSICS.MAX_JUMPS) ∧
    (rid > s.lastProcessedJumpRequestId ∧ groundResetCount s < PHYSICS.MAX_JUMPS →
      (verticalStep s rid).lastProcessedJumpRequestId = rid ∧
      (verticalStep s rid).jumpCount = groundResetCount s + 1 ∧
      (verticalStep s rid).vy =
        (if groundResetCount s = 0 then PHYSICS.JUMP_FORCE * s.jumpMult
         else PHYSICS.JUMP_FORCE * s.jumpMult * PHYSICS.DOUBLE_JUMP_MULTIPLIER)) ∧
    (rid > s.lastProcessedJumpRequestId ∧ groundResetCount s < PHYSICS.MAX_JUMPS →
      (verticalStep (verticalStep s rid) rid).lastProcessedJumpRequestId
        = (verticalStep s rid).lastProcessedJumpRequestId) := by
  by_cases hf : jumpFires s rid
  · have hvy2 : (0:ℚ) < (if groundResetCount s = 0 then PHYSICS.JUMP_FORCE * s.jumpMult
        else PHYSICS.JUMP_FORCE * s.jumpMult * PHYSICS.DOUBLE_JUMP_MULTIPLIER) := by
      split_ifs <;>
        simp only [PHYSICS.JUMP_FORCE, PHYSICS.DOUBLE_JUMP_MULTIPLIER] <;> nlinarith
    have hsnap : ¬ (s.y + (if groundResetCount s = 0 then PHYSICS.JUMP_FORCE * s.jumpMult
        else PHYSICS.JUMP_FORCE * s.jumpMult * PHYSICS.DOUBLE_JUMP_MULTIPLIER) *
          PHYSICS.FIXED_TIMESTEP < PHYSICS.GROUND_Y) := by
      push_neg
      have hts : (0:ℚ) < PHYSICS.FIXED_TIMESTEP := by
        simp only [PHYSICS.FIXED_TIMESTEP]; norm_num
      nlinarith [mul_pos hvy2 hts]
    have hs' : verticalStep s rid =
        ⟨s.y + (if groundResetCount s = 0 then PHYSICS.JUMP_FORCE * s.jumpMult
          else PHYSICS.JUMP_FORCE * s.jumpMult * PHYSICS.DOUBLE_JUMP_MULTIPLIER) *
            PHYSICS.FIXED_TIMESTEP,
         (if groundResetCount s = 0 then PHYSICS.JUMP_FORCE * s.jumpMult
          else PHYSICS.JUMP_FORCE * s.jumpMult * PHYSICS.DOUBLE_JUMP_MULTIPLIER),
         groundResetCount s + 1, rid, s.jumpMult⟩ := by
      simp only [verticalStep]
      simp only [hf, if_true, hsnap, if_false]
    have hlt := hf.1
    refine ⟨?_, fun _ => ?_, fun _ => ?_⟩
    · rw [hs']
      constructor
      · intro _; exact hf
      · intro _; exact Nat.ne_of_gt hlt
    · rw [hs']
      exact ⟨rfl, rfl, rfl⟩
    · have hnf : ¬ jumpFires (verticalStep s rid) rid := by
        rw [hs']
        intro hcon
        exact absurd hcon.1 (lt_irrefl rid)
      exact verticalStep_of_not_fires _ rid hnf
  · have hlast := verticalStep_of_not_fires s rid hf
    refine ⟨?_, fun h => absurd h hf, fun h => absurd h hf⟩
    rw [hlast]
    simp only [ne_self_iff_false, false_iff]
    exact hf

/-! ### Input consumption with last-input fallback (`physicsUpdate`, step 1) -/

structure InputRec where
  tick : ℕ
  x : ℚ
  z : ℚ
  jumpRequestId : ℕ
  rotY : ℚ
deriving DecidableEq, Repr

/-- One tick's input consumption: shift the queue head; when the queue is
empty, fall back to `lastInput` (or, when that was never set, to a default
all-zero record carrying the player's current `rotY`), leaving `lastInput`
untouched; when a queued record is consumed, record it as `lastInput`.
Returns (consumed record, remaining queue, new `lastInput`). -/
def consumeInput (queue : List InputRec) (lastInput : Option InputRec) (rotY : ℚ) :
    InputRec × List InputRec × Option InputRec :=
  match queue with
  | [] =>
      ((match lastInput with
        | some i => i
        | none => ⟨0, 0, 0, 0, rotY⟩), [], lastInput)
  | i :: rest => (i, rest, some i)

/-- **C4, counterexample.** With an empty queue and a `lastInput` whose
movement is `x = 1`, the consumed record keeps `x = 1`: the fallback does
*not* zero the movement components. -/
theorem consumeInput_counterexample :
    (consumeInput [] (some ⟨5, 1, 0, 3, 0⟩) 0).1.x = 1 ∧ ((1:ℚ) ≠ 0) := by
  constructor
  · rfl
  · norm_num

/-- **C4, amended.** On an empty queue the consumed input is `lastInput`
*unchanged* — movement components included — with `jumpRequestId` unchanged
(the all-zero default applies only when no input was ever consumed), and
`lastInput` is not modified; on a non-empty queue the head is consumed and
becomes the new `lastInput`. -/
theorem consumeInput_contract (li : Option InputRec) (r : ℚ)
    (i : InputRec) (q : List InputRec) :
    consumeInput [] li r = (li.getD ⟨0, 0, 0, 0, r⟩, [], li) ∧
    consumeInput (i :: q) li r = (i, q, some i) := by
  constructor
  · cases li <;> rfl
  · rfl

/-! ### Input intake (`handleInput`): tick deduplication and the flood cap -/

structure PlayerInbox where
  inputQueue : List InputRec
  lastReceivedTick : ℕ
deriving DecidableEq, Repr

/-- `processInput` of `handleInput`: accept a record iff its tick is strictly
newer than `lastReceivedTick`; on acceptance push it and advance the mark. -/
def processInput (st : PlayerInbox) (i : InputRec) : PlayerInbox :=
  if i.tick > st.lastReceivedTick then ⟨st.inputQueue ++ [i], i.tick⟩ else st

/-- An `input` message: a legacy single record or a batch. -/
inductive InputMsg where
  | single (i : InputRec)
  | batch (l : List InputRec)

def handleInput (st : PlayerInbox) (m : InputMsg) : PlayerInbox :=
  match m with
  | .single i => processInput st i
  | .batch l =>
      let sorted := l.mergeSort (fun a b => a.tick ≤ b.tick)
      let st1 := sorted.foldl processInput st
      if st1.inputQueue.length > 60 then
        ⟨st1.inputQueue.drop (st1.inputQueue.length - 60), st1.lastReceivedTick⟩
      else st1

lemma processBatch_spec (l : List InputRec) (st : PlayerInbox) :
    ∃ ext, l.foldl processInput st =
        ⟨st.inputQueue ++ ext, ext.foldl (fun _ j => j.tick) st.lastReceivedTick⟩ ∧
      (∀ j ∈ ext, st.lastReceivedTick < j.tick) ∧
      List.Chain' (fun a b => a.tick < b.tick) ext := by
  induction l generalizing st with
  | nil => exact ⟨[], by simp, by simp, by simp⟩
  | cons i t ih =>
    by_cases h : i.tick > st.lastReceivedTick
    · obtain ⟨ext, he, hall, hch⟩ := ih ⟨st.inputQueue ++ [i], i.tick⟩
      refine ⟨i :: ext, ?_, ?_, ?_⟩
      · simp only [List.foldl_cons, processInput, if_pos h]
        rw [he]
        simp [List.append_assoc]
      · intro j hj
        rcases List.mem_cons.mp hj with hj | hj
        · rw [hj]; exact h
        · exact lt_trans h (hall j hj)
      · rw [List.chain'_cons']
        exact ⟨fun y hy => hall y (List.mem_of_mem_head? hy), hch⟩
    · obtain ⟨ext, he, hall, hch⟩ := ih st
      exact ⟨ext, by simp only [List.foldl_cons, processInput, if_neg h]; exact he, hall, hch⟩

/-- **C5.** A record is enqueued iff its tick is strictly newer than
`lastReceivedTick` at the moment it is processed, and acceptance advances
`lastReceivedTick` to the record's tick.  Consequently, over any processed
sequence the queue only grows by a tail of accepted records whose ticks are
strictly increasing and all strictly above the initial mark, and the final
mark is the last accepted tick (or the initial mark when none was
accepted). -/
theorem handleInput_accept_iff (st : PlayerInbox) (i : InputRec) (l : List InputRec) :
    (handleInput st (.single i) =
      if i.tick > st.lastReceivedTick then
        ⟨st.inputQueue ++ [i], i.tick⟩ else st) ∧
    (∃ ext, l.foldl processInput st =
        ⟨st.inputQueue ++ ext, ext.foldl (fun _ j => j.tick) st.lastReceivedTick⟩ ∧
      (∀ j ∈ ext, st.lastReceivedTick < j.tick) ∧
      List.Chain' (fun a b => a.tick < b.tick) ext) :=
  ⟨rfl, processBatch_spec l st⟩

/-- **C6, counterexample.** With a queue already holding 60 records, a
*single-record* message that is accepted leaves 61 records in the queue:
the 60-entry cap is not applied on the single-record path. -/
theorem handleInput_single_cap_counterexample :
    (handleInput ⟨List.replicate 60 ⟨0, 0, 0, 0, 0⟩, 0⟩
        (.single ⟨1, 0, 0, 0, 0⟩)).inputQueue.length = 61 ∧ ¬ (61 ≤ 60) := by
  constructor
  · simp [handleInput, processInput]
  · omega

/-- **C6, amended.** The 60-entry anti-flood cap holds after every *batched*
message — excess is removed oldest-first, keeping a suffix — but a
single-record message never trims, so it can leave the queue one beyond its
previous length. -/
theorem handleInput_cap (st : PlayerInbox) (l : List InputRec) (i : InputRec) :
    (handleInput st (.batch l)).inputQueue.length ≤ 60 ∧
    List.IsSuffix (handleInput st (.batch l)).inputQueue
      (((l.mergeSort (fun a b => a.tick ≤ b.tick)).foldl processInput st).inputQueue) ∧
    (handleInput st (.single i)).inputQueue.length ≤ st.inputQueue.length + 1 := by
  refine ⟨?_, ?_, ?_⟩
  · simp only [handleInput]
    split_ifs with h
    · simp only [List.length_drop]
      omega
    · push_neg at h
      exact h
  · simp only [handleInput]
    split_ifs with h
    · exact List.drop_suffix _ _
    · exact List.suffix_refl _
  · simp only [handleInput, processInput]
    split_ifs with h
    · simp
    · simp

/-! ### Goal adjudication (`checkGoal`)

State restricted to what `checkGoal` reads and writes: the cooldown
timestamp, the two scores, the player table (stats and teams) and the touch
history.  Times are in milliseconds (`Date.now()`), modelled as `ℤ`. -/

inductive Team where
  | red
  | blue
deriving DecidableEq, Repr

structure PlayerRec where
  sessionId : String
  team : Team
  goals : ℕ
  assists : ℕ
deriving DecidableEq, Repr

structure GoalState where
  lastGoalTime : ℤ
  redScore : ℕ
  blueScore : ℕ
  players : List PlayerRec
  lastTouchSessionId : Option String
  secondLastTouchSessionId : Option String
deriving DecidableEq, Repr

/-- `this.state.players.get(id)`. -/
def getPlayer (ps : List PlayerRec) (id : String) : Option PlayerRec :=
  ps.find? (fun p => p.sessionId == id)

/-- `scorer.goals++` on the live player table. -/
def bumpGoals (ps : List PlayerRec) (id : String) : List PlayerRec :=
  ps.map (fun p => if p.sessionId = id then { p with goals := p.goals + 1 } else p)

/-- `assistant.assists++` on the live player table. -/
def bumpAssists (ps : List PlayerRec) (id : String) : List PlayerRec :=
  ps.map (fun p => if p.sessionId = id then { p with assists := p.assists + 1 } else p)

/-- The geometric goal test of `checkGoal`. -/
def goalGeometry (pos : Vec3) : Prop :=
  |pos.x| > PHYSICS.GOAL_LINE_X + PHYSICS.BALL_RADIUS ∧
  |pos.z| < PHYSICS.GOAL_WIDTH / 2 ∧
  pos.y < PHYSICS.GOAL_HEIGHT

instance (pos : Vec3) : Decidable (goalGeometry pos) := by
  unfold goalGeometry; infer_instance

/-- The "Award goal and assist" block: bump the scorer's goals when the last
toucher is a present player, and the assistant's assists when the second-last
toucher is a present player on the scorer's team with a different session. -/
def attributeGoal (players : List PlayerRec)
    (lastTouch secondLastTouch : Option String) : List PlayerRec :=
  match lastTouch with
  | none => players
  | some lt =>
    match getPlayer players lt with
    | none => players
    | some scorer =>
      let ps1 := bumpGoals players lt
      match secondLastTouch with
      | none => ps1
      | some slt =>
        match getPlayer ps1 slt with
        | none => ps1
        | some assistant =>
          if assistant.team = scorer.team ∧ assistant.sessionId ≠ scorer.sessionId then
            bumpAssists ps1 slt
          else ps1

/-- `checkGoal`, returning the updated state and the `goal-scored` broadcast
(`some team` iff a goal was awarded this tick). -/
def checkGoal (s : GoalState) (now : ℤ) (pos : Vec3) : GoalState × Option Team :=
  if now - s.lastGoalTime < GOAL_COOLDOWN then (s, none)
  else if goalGeometry pos then
    let scoringTeam := if pos.x > 0 then Team.red else Team.blue
    ({ s with
        lastGoalTime := now,
        redScore := if scoringTeam = Team.red then s.redScore + 1 else s.redScore,
        blueScore := if scoringTeam = Team.blue then s.blueScore + 1 else s.blueScore,
        players := attributeGoal s.players s.lastTouchSessionId s.secondLastTouchSessionId },
      some scoringTeam)
  else (s, none)

lemma getPlayer_sessionId {ps : List PlayerRec} {id : String} {p : PlayerRec}
    (h : getPlayer ps id = some p) : p.sessionId = id := by
  have := List.find?_some h
  exact eq_of_beq this

lemma getPlayer_bumpGoals_self (ps : List PlayerRec) (id : String) :
    getPlayer (bumpGoals ps id) id
      = (getPlayer ps id).map (fun p => { p with goals := p.goals + 1 }) := by
  induction ps with
  | nil => rfl
  | cons p t ih =>
    unfold bumpGoals getPlayer at ih ⊢
    rw [List.map_cons]
    by_cases hb : p.sessionId = id
    · rw [if_pos hb, List.find?_cons_of_pos _ (by simp [hb]),
        List.find?_cons_of_pos _ (by simp [hb])]
      rfl
    · rw [if_neg hb, List.find?_cons_of_neg _ (by simp [hb]),
        List.find?_cons_of_neg _ (by simp [hb])]
      exact ih

lemma getPlayer_bumpAssists_self (ps : List PlayerRec) (id : String) :
    getPlayer (bumpAssists ps id) id
      = (getPlayer ps id).map (fun p => { p with assists := p.assists + 1 }) := by
  induction ps with
  | nil => rfl
  | cons p t ih =>
    unfold bumpAssists getPlayer at ih ⊢
    rw [List.map_cons]
    by_cases hb : p.sessionId = id
    · rw [if_pos hb, List.find?_cons_of_pos _ (by simp [hb]),
        List.find?_cons_of_pos _ (by simp [hb])]
      rfl
    · rw [if_neg hb, List.find?_cons_of_neg _ (by simp [hb]),
        List.find?_cons_of_neg _ (by simp [hb])]
      exact ih

lemma getPlayer_bumpAssists_ne (ps : List PlayerRec) {id id' : String} (h : id' ≠ id) :
    getPlayer (bumpAssists ps id) id' = getPlayer ps id' := by
  induction ps with
  | nil => rfl
  | cons p t ih =>
    unfold bumpAssists getPlayer at ih ⊢
    rw [List.map_cons]
    by_cases hb : p.sessionId = id
    · have hne : p.sessionId ≠ id' := by rw [hb]; exact Ne.symm h
      rw [if_pos hb, List.find?_cons_of_neg _ (by simp [hb, Ne.symm h]),
        List.find?_cons_of_neg _ (by simp [hne])]
      exact ih
    · by_cases hb' : p.sessionId = id'
      · rw [if_neg hb, List.find?_cons_of_pos _ (by simp [hb']),
          List.find?_cons_of_pos _ (by simp [hb'])]
      · rw [if_neg hb, List.find?_cons_of_neg _ (by simp [hb']),
          List.find?_cons_of_neg _ (by simp [hb'])]
        exact ih

/-- **C1.** On every sim tick a goal is awarded iff the cooldown has expired
(`now − lastGoalTime ≥ 5 s`) and the ball satisfies
`|x| > GOAL_LINE_X + R_b ∧ |z| < 2.5 ∧ y < 4`; on award the scoring team is
red iff `x > 0`, exactly that team's score is incremented by one,
`lastGoalTime` becomes `now`, the goal goes to the player keyed by
`lastTouchSessionId` when present, and an assist goes to the player keyed by
`secondLastTouchSessionId` iff that player exists, is on the scorer's team
and is a different session. -/
theorem checkGoal_contract (s : GoalState) (now : ℤ) (pos : Vec3) :
    ((checkGoal s now pos).2.isSome ↔
      now - s.lastGoalTime ≥ GOAL_COOLDOWN ∧
      |pos.x| > PHYSICS.GOAL_LINE_X + PHYSICS.BALL_RADIUS ∧
      |pos.z| < PHYSICS.GOAL_WIDTH / 2 ∧ pos.y < PHYSICS.GOAL_HEIGHT) ∧
    ((checkGoal s now pos).2.isSome →
      (checkGoal s now pos).2 = some (if pos.x > 0 then Team.red else Team.blue) ∧
      (checkGoal s now pos).1.lastGoalTime = now ∧
      (checkGoal s now pos).1.redScore
        = (if pos.x > 0 then s.redScore + 1 else s.redScore) ∧
      (checkGoal s now pos).1.blueScore
        = (if pos.x > 0 then s.blueScore else s.blueScore + 1) ∧
      (s.lastTouchSessionId = none → (checkGoal s now pos).1.players = s.players) ∧
      (∀ lt, s.lastTouchSessionId = some lt →
        (getPlayer s.players lt = none → (checkGoal s now pos).1.players = s.players) ∧
        (∀ scorer, getPlayer s.players lt = some scorer →
          getPlayer (checkGoal s now pos).1.players lt
            = some { scorer with goals := scorer.goals + 1 } ∧
          (s.secondLastTouchSessionId = none →
            (checkGoal s now pos).1.players = bumpGoals s.players lt) ∧
          (∀ slt, s.secondLastTouchSessionId = some slt →
            (getPlayer (bumpGoals s.players lt) slt = none →
              (checkGoal s now pos).1.players = bumpGoals s.players lt) ∧
            (∀ a, getPlayer (bumpGoals s.players lt) slt = some a →
              (a.team = scorer.team ∧ a.sessionId ≠ scorer.sessionId →
                getPlayer (checkGoal s now pos).1.players slt
                  = some { a with assists := a.assists + 1 }) ∧
              (¬ (a.team = scorer.team ∧ a.sessionId ≠ scorer.sessionId) →
                (checkGoal s now pos).1.players = bumpGoals s.players lt)))))) := by
  constructor
  · unfold checkGoal
    split_ifs with h1 h2 hx
    · simp only [Option.isSome_none, Bool.false_eq_true, false_iff]
      rintro ⟨ha, -⟩
      exact absurd h1 (not_lt.mpr ha)
    · simp only [Option.isSome_some, true_iff]
      exact ⟨not_lt.mp h1, h2⟩
    · simp only [Option.isSome_some, true_iff]
      exact ⟨not_lt.mp h1, h2⟩
    · simp only [Option.isSome_none, Bool.false_eq_true, false_iff]
      rintro ⟨-, hb, hc, hd⟩
      exact h2 ⟨hb, hc, hd⟩
  · intro hsome
    have h1 : ¬ (now - s.lastGoalTime < GOAL_COOLDOWN) := by
      intro hc
      unfold checkGoal at hsome
      rw [if_pos hc] at hsome
      simp at hsome
    have h2 : goalGeometry pos := by
      by_contra hg
      unfold checkGoal at hsome
      rw [if_neg h1, if_neg hg] at hsome
      simp at hsome
    have hck : checkGoal s now pos =
        ({ s with
            lastGoalTime := now,
            redScore := if (if pos.x > 0 then Team.red else Team.blue) = Team.red
                        then s.redScore + 1 else s.redScore,
            blueScore := if (if pos.x > 0 then Team.red else Team.blue) = Team.blue
                         then s.blueScore + 1 else s.blueScore,
            players := attributeGoal s.players s.lastTouchSessionId
                         s.secondLastTouchSessionId },
          some (if pos.x > 0 then Team.red else Team.blue)) := by
      unfold checkGoal
      rw [if_neg h1, if_pos h2]
    have hpl : (checkGoal s now pos).1.players
        = attributeGoal s.players s.lastTouchSessionId s.secondLastTouchSessionId := by
      rw [hck]
    refine ⟨?_, ?_, ?_, ?_, ?_, ?_⟩
    · rw [hck]
    · rw [hck]
    · rw [hck]
      by_cases hx : pos.x > 0 <;> simp [hx]
    · rw [hck]
      by_cases hx : pos.x > 0 <;> simp [hx]
    · intro hnone
      rw [hpl, hnone]
      rfl
    · intro lt hlt
      have hbase : (checkGoal s now pos).1.players
          = attributeGoal s.players (some lt) s.secondLastTouchSessionId := by
        rw [hpl, hlt]
      constructor
      · intro hgp
        rw [hbase]
        simp [attributeGoal, hgp]
      · intro scorer hgp
        refine ⟨?_, ?_, ?_⟩
        · -- the scorer's goals were bumped, whatever the assist outcome
          cases hslt : s.secondLastTouchSessionId with
          | none =>
            have hattr : attributeGoal s.players (some lt) none
                = bumpGoals s.players lt := by
              simp [attributeGoal, hgp]
            rw [hbase, hslt, hattr, getPlayer_bumpGoals_self, hgp]
            rfl
          | some slt =>
            cases hga : getPlayer (bumpGoals s.players lt) slt with
            | none =>
              have hattr : attributeGoal s.players (some lt) (some slt)
                  = bumpGoals s.players lt := by
                simp [attributeGoal, hgp, hga]
              rw [hbase, hslt, hattr, getPlayer_bumpGoals_self, hgp]
              rfl
            | some a =>
              have hattr : attributeGoal s.players (some lt) (some slt)
                  = if a.team = scorer.team ∧ a.sessionId ≠ scorer.sessionId
                    then bumpAssists (bumpGoals s.players lt) slt
                    else bumpGoals s.players lt := by
                simp [attributeGoal, hgp, hga]
              by_cases hcond : a.team = scorer.team ∧ a.sessionId ≠ scorer.sessionId
              · have hslt' : a.sessionId = slt := getPlayer_sessionId hga
                have hltid : scorer.sessionId = lt := getPlayer_sessionId hgp
                have hne : lt ≠ slt := by
                  intro hcon
                  exact hcond.2 (by rw [hslt', hltid, hcon])
                rw [hbase, hslt, hattr, if_pos hcond, getPlayer_bumpAssists_ne _ hne,
                  getPlayer_bumpGoals_self, hgp]
                rfl
              · rw [hbase, hslt, hattr, if_neg hcond, getPlayer_bumpGoals_self, hgp]
                rfl
        · intro hslt
          rw [hbase, hslt]
          simp [attributeGoal, hgp]
        · intro slt hslt
          constructor
          · intro hga
            rw [hbase, hslt]
            simp [attributeGoal, hgp, hga]
          · intro a hga
            constructor
            · intro hcond
              rw [hbase, hslt]
              simp only [attributeGoal, hgp, hga, if_pos hcond]
              rw [getPlayer_bumpAssists_self, hga]
              rfl
            · intro hcond
              rw [hbase, hslt]
              simp [attributeGoal, hgp, hga, if_neg hcond]

/-- **C1, witness.** A concrete awarded goal: cooldown expired, ball at
`(12, 0, 1)`, red scores, the last toucher "A" gets the goal and teammate
"B" the assist. -/
theorem checkGoal_contract_witness :
    (checkGoal ⟨0, 0, 0, [⟨"A", Team.red, 0, 0⟩, ⟨"B", Team.red, 0, 0⟩],
        some "A", some "B"⟩ 6000 ⟨12, 0, 1⟩).2.isSome := by
  have h := checkGoal_contract ⟨0, 0, 0, [⟨"A", Team.red, 0, 0⟩, ⟨"B", Team.red, 0, 0⟩],
    some "A", some "B"⟩ 6000 ⟨12, 0, 1⟩
  rw [h.1]
  refine ⟨?_, ?_, ?_, ?_⟩ <;> simp [GOAL_COOLDOWN, PHYSICS.GOAL_LINE_X, PHYSICS.BALL_RADIUS,
    PHYSICS.GOAL_WIDTH, PHYSICS.GOAL_HEIGHT] <;> norm_num

/-! ### Goal cooldown over a run of ticks (for the temporal spacing claim) -/

/-- The award times produced by running `checkGoal` over a sequence of
`(Date.now(), ball position)` tick observations. -/
def goalTimes (s : GoalState) : List (ℤ × Vec3) → List ℤ
  | [] => []
  | (t, p) :: rest =>
    if (checkGoal s t p).2.isSome then t :: goalTimes (checkGoal s t p).1 rest
    else goalTimes (checkGoal s t p).1 rest

lemma checkGoal_awarded_time {s : GoalState} {now : ℤ} {pos : Vec3}
    (h : (checkGoal s now pos).2.isSome) :
    GOAL_COOLDOWN ≤ now - s.lastGoalTime ∧ (checkGoal s now pos).1.lastGoalTime = now := by
  unfold checkGoal at h ⊢
  split_ifs at h ⊢ with h1 h2 hx
  · simp at h
  · exact ⟨not_lt.mp h1, rfl⟩
  · exact ⟨not_lt.mp h1, rfl⟩
  · simp at h

lemma checkGoal_blocked_time {s : GoalState} {now : ℤ} {pos : Vec3}
    (h : ¬ (checkGoal s now pos).2.isSome) :
    (checkGoal s now pos).1.lastGoalTime = s.lastGoalTime := by
  unfold checkGoal at h ⊢
  split_ifs at h ⊢ with h1 h2 hx
  · rfl
  · simp at h
  · simp at h
  · rfl

lemma goalTimes_head_spacing (ticks : List (ℤ × Vec3)) :
    ∀ (s : GoalState) (h : ℤ), h ∈ (goalTimes s ticks).head? →
      GOAL_COOLDOWN ≤ h - s.lastGoalTime := by
  induction ticks with
  | nil => intro s h hh; simp [goalTimes] at hh
  | cons tp rest ih =>
    rcases tp with ⟨t, p⟩
    intro s h hh
    by_cases hA : (checkGoal s t p).2.isSome
    · simp only [goalTimes, if_pos hA, List.head?_cons, Option.mem_def,
        Option.some_inj] at hh
      rw [← hh]
      exact (checkGoal_awarded_time hA).1
    · simp only [goalTimes, if_neg hA] at hh
      have := ih (checkGoal s t p).1 h hh
      rwa [checkGoal_blocked_time hA] at this

/-- **C2.** No goal is awarded while `now − lastGoalTime < GOAL_COOLDOWN`,
whatever the ball position; consequently over any run of ticks the sequence
of award timestamps has consecutive elements at least 5 s apart. -/
theorem goal_cooldown_spacing (s : GoalState) (ticks : List (ℤ × Vec3)) :
    (∀ (now : ℤ) (pos : Vec3), now - s.lastGoalTime < GOAL_COOLDOWN →
      (checkGoal s now pos).2 = none) ∧
    List.Chain' (fun t1 t2 => t2 - t1 ≥ GOAL_COOLDOWN) (goalTimes s ticks) := by
  constructor
  · intro now pos hc
    unfold checkGoal
    rw [if_pos hc]
  · induction ticks generalizing s with
    | nil => simp [goalTimes]
    | cons tp rest ih =>
      rcases tp with ⟨t, p⟩
      by_cases hA : (checkGoal s t p).2.isSome
      · simp only [goalTimes, if_pos hA]
        rw [List.chain'_cons']
        refine ⟨?_, ih _⟩
        intro y hy
        have hsp := goalTimes_head_spacing rest (checkGoal s t p).1 y hy
        rw [(checkGoal_awarded_time hA).2] at hsp
        exact hsp
      · simp only [goalTimes, if_neg hA]
        exact ih _

/-- **C2, witness.** With `lastGoalTime = 0`, at `now = 1000` no goal is
awarded even with the ball deep inside a goal. -/
theorem goal_cooldown_spacing_witness :
    (checkGoal ⟨0, 0, 0, [], none, none⟩ 1000 ⟨12, 0, 1⟩).2 = none :=
  (goal_cooldown_spacing ⟨0, 0, 0, [], none, none⟩ []).1 1000 ⟨12, 0, 1⟩
    (by simp only [GOAL_COOLDOWN]; norm_num)

/-- **C3, witness.** A grounded player with `jumpMult = 1` consuming request
id 7: the jump fires, the id is recorded and `vy` becomes 8. -/
theorem verticalStep_jump_witness :
    (verticalStep ⟨1/10, 0, 0, 0, 1⟩ 7).lastProcessedJumpRequestId = 7 ∧
    (verticalStep ⟨1/10, 0, 0, 0, 1⟩ 7).vy = 8 := by
  have hzero : groundResetCount ⟨1/10, 0, 0, 0, 1⟩ = 0 := by
    unfold groundResetCount
    split_ifs <;> rfl
  have h := verticalStep_jump_edge_trigger ⟨1/10, 0, 0, 0, 1⟩ 7
    (by simp only [PHYSICS.GROUND_Y]; norm_num) (le_refl 1)
  have hc : (7:ℕ) > (⟨1/10, 0, 0, 0, 1⟩ : VertState).lastProcessedJumpRequestId ∧
      groundResetCount ⟨1/10, 0, 0, 0, 1⟩ < PHYSICS.MAX_JUMPS := by
    refine ⟨by norm_num, ?_⟩
    rw [hzero]
    simp only [PHYSICS.MAX_JUMPS]
    norm_num
  have he := h.2.1 hc
  refine ⟨he.1, ?_⟩
  rw [he.2.2, if_pos hzero]
  simp only [PHYSICS.JUMP_FORCE]
  norm_num

/-! ### Player-ball contact resolution (`handlePlayerBallCollisions`)

Per player contact against the ball.  The source computes `dist`,
`relSpeed` and `playerSpeed` with `Math.sqrt`; the embedding takes these
three square roots as arguments (the theorems that use them carry their
defining equations as hypotheses, e.g. `dist · dist = distSq ∧ 0 ≤ dist`),
keeping every definition executable over `ℚ`. -/

/-- Effective player collision radius (`player.giant ? 2.0 :
PHYSICS.PLAYER_RADIUS`). -/
def playerRadiusOf (giant : Bool) : ℚ :=
  if giant then 2.0 else PHYSICS.PLAYER_RADIUS

/-- Observable outcome of one player-ball contact pass: nothing, the
stability ("head carry") update (the `setLinvel`/`setTranslation` pair, with
ball ownership assigned and the impulse branch skipped), or an applied
impulse (with ownership assigned and `ball-touched` broadcast). -/
inductive ContactAction where
  | noAction
  | stability (newVel : Vec3) (newPos : Vec3)
  | impulse (i : Vec3)
deriving DecidableEq, Repr

/-- The impulse a contact applies to the ball, if any. -/
def contactImpulse : ContactAction → Option Vec3
  | ContactAction.impulse i => some i
  | _ => none

def resolveContact (ballPos ballVel playerPos : Vec3) (pvx pvy pvz : ℚ)
    (giant : Bool) (dist relSpeed playerSpeed : ℚ) : ContactAction :=
  let playerRadius := playerRadiusOf giant
  let combinedRadius := PHYSICS.BALL_RADIUS + playerRadius
  let dx := ballPos.x - playerPos.x
  let dy := ballPos.y - playerPos.y
  let dz := ballPos.z - playerPos.z
  let distSq := dx * dx + dy * dy + dz * dz
  if distSq < combinedRadius * combinedRadius then
    let d := if dist = 0 then 0.1 else dist
    let nx := dx / d
    let ny := dy / d
    let nz := dz / d
    let relVx := pvx - ballVel.x
    let relVy := pvy - ballVel.y
    let relVz := pvz - ballVel.z
    let approachSpeed := relVx * nx + relVy * ny + relVz * nz
    if (dy > PHYSICS.BALL_STABILITY_HEIGHT_MIN ∧ ny > 0.5) ∧
       relSpeed < PHYSICS.BALL_STABILITY_VELOCITY_THRESHOLD then
      let dampedVy := ballVel.y * PHYSICS.BALL_STABILITY_DAMPING
      let targetX := playerPos.x
      let targetY := playerPos.y + playerRadius + PHYSICS.BALL_RADIUS + 0.05
      let targetZ := playerPos.z
      let correctionStrength := (0.3 : ℚ)
      ContactAction.stability ⟨pvx, dampedVy, pvz⟩
        ⟨ballPos.x + (targetX - ballPos.x) * correctionStrength,
         max ballPos.y targetY,
         ballPos.z + (targetZ - ballPos.z) * correctionStrength⟩
    else if approachSpeed > 0 then
      let momentumFactor := if playerSpeed > PHYSICS.COLLISION_VELOCITY_THRESHOLD
        then (playerSpeed / 8) * PHYSICS.PLAYER_BALL_VELOCITY_TRANSFER else 0.5
      let approachDot := (pvx * nx + pvz * nz) / (playerSpeed + 0.001)
      let approachBoost := if approachDot > 0.5 then PHYSICS.PLAYER_BALL_APPROACH_BOOST else 1.0
      let impulseMag0 := approachSpeed * PHYSICS.BALL_MASS *
        (1 + PHYSICS.PLAYER_BALL_RESTITUTION) * momentumFactor * approachBoost
      let impulseMag := if dy > PHYSICS.BALL_STABILITY_HEIGHT_MIN ∧ ny > 0.5
        then min impulseMag0 (PHYSICS.BALL_STABILITY_IMPULSE_CAP * playerSpeed)
        else max PHYSICS.PLAYER_BALL_IMPULSE_MIN impulseMag0
      let lift := if giant then PHYSICS.COLLISION_LIFT_GIANT else PHYSICS.COLLISION_LIFT
      ContactAction.impulse
        ⟨nx * impulseMag, max 0.5 (ny * impulseMag) + lift, nz * impulseMag⟩
    else ContactAction.noAction
  else ContactAction.noAction

/-- **C7.** On a contact with `dy > 0.3`, normal `ny > 0.5` and relative
speed below `1.5`, the resolver enters stability mode: ball velocity becomes
`(player.vx, ball.vy × 0.92, player.vz)`, the ball's x and z move 30 % of
the way toward the player while y is never lowered
(`max(ball.y, player.y + R_p + R_b + 0.05)`), ownership passes to the
player, and no impulse is applied. -/
theorem resolveContact_stability (bp bv pp : Vec3) (pvx pvy pvz : ℚ) (g : Bool)
    (dist relSpeed playerSpeed : ℚ)
    (_hdist : dist * dist
        = (bp.x - pp.x) * (bp.x - pp.x) + (bp.y - pp.y) * (bp.y - pp.y) +
          (bp.z - pp.z) * (bp.z - pp.z) ∧ 0 ≤ dist)
    (hcontact : (bp.x - pp.x) * (bp.x - pp.x) + (bp.y - pp.y) * (bp.y - pp.y) +
          (bp.z - pp.z) * (bp.z - pp.z)
        < (PHYSICS.BALL_RADIUS + playerRadiusOf g) * (PHYSICS.BALL_RADIUS + playerRadiusOf g))
    (hdy : bp.y - pp.y > PHYSICS.BALL_STABILITY_HEIGHT_MIN)
    (hny : (bp.y - pp.y) / (if dist = 0 then 0.1 else dist) > 0.5)
    (hrel : relSpeed < PHYSICS.BALL_STABILITY_VELOCITY_THRESHOLD) :
    resolveContact bp bv pp pvx pvy pvz g dist relSpeed playerSpeed
      = ContactAction.stability ⟨pvx, bv.y * PHYSICS.BALL_STABILITY_DAMPING, pvz⟩
          ⟨bp.x + (pp.x - bp.x) * 0.3,
           max bp.y (pp.y + playerRadiusOf g + PHYSICS.BALL_RADIUS + 0.05),
           bp.z + (pp.z - bp.z) * 0.3⟩ ∧
    contactImpulse (resolveContact bp bv pp pvx pvy pvz g dist relSpeed playerSpeed)
      = none := by
  have hmain : resolveContact bp bv pp pvx pvy pvz g dist relSpeed playerSpeed
      = ContactAction.stability ⟨pvx, bv.y * PHYSICS.BALL_STABILITY_DAMPING, pvz⟩
          ⟨bp.x + (pp.x - bp.x) * 0.3,
           max bp.y (pp.y + playerRadiusOf g + PHYSICS.BALL_RADIUS + 0.05),
           bp.z + (pp.z - bp.z) * 0.3⟩ := by
    simp only [resolveContact]
    rw [if_pos hcontact, if_pos ⟨⟨hdy, hny⟩, hrel⟩]
  exact ⟨hmain, by rw [hmain]; rfl⟩

/-- **C7, witness.** Ball resting straight above a slowly walking player:
the ball is carried at the player's horizontal velocity and lifted to
`1.45`. -/
theorem resolveContact_stability_witness :
    resolveContact ⟨0, 12/10, 0⟩ ⟨0, 0, 0⟩ ⟨0, 0, 0⟩ (1/2) 0 0 false
        (12/10) (1/2) (1/2)
      = ContactAction.stability ⟨1/2, 0, 0⟩ ⟨0, 29/20, 0⟩ := by
  have h := resolveContact_stability ⟨0, 12/10, 0⟩ ⟨0, 0, 0⟩ ⟨0, 0, 0⟩ (1/2) 0 0 false
    (12/10) (1/2) (1/2)
    (by constructor <;> norm_num)
    (by simp only [PHYSICS.BALL_RADIUS, playerRadiusOf, PHYSICS.PLAYER_RADIUS]; norm_num)
    (by simp only [PHYSICS.BALL_STABILITY_HEIGHT_MIN]; norm_num)
    (by rw [if_neg (by norm_num : ¬ ((12:ℚ)/10 = 0))]; norm_num)
    (by simp only [PHYSICS.BALL_STABILITY_VELOCITY_THRESHOLD]; norm_num)
  rw [h.1]
  simp only [PHYSICS.BALL_STABILITY_DAMPING, playerRadiusOf, PHYSICS.PLAYER_RADIUS,
    PHYSICS.BALL_RADIUS]
  norm_num

/-- **C8, amended.** For a contact not in stability mode: nothing is applied
when `approachSpeed ≤ 0`; otherwise the applied impulse is
`(nx·m, max(0.5, ny·m) + lift, nz·m)` with
`m = approachSpeed × BALL_MASS × (1 + 0.85) × momentumFactor ×
approachBoost`, `momentumFactor = (playerSpeed/8) × 0.65` when
`playerSpeed > 3` and `0.5` otherwise, `approachBoost = 1.4` when
`approachDot > 0.5` and `1.0` otherwise, `m` capped at `2.0 × playerSpeed`
under the ball-on-head geometry and otherwise raised to at least
`PLAYER_BALL_IMPULSE_MIN (5)`, and `lift = COLLISION_LIFT (5)`
(`COLLISION_LIFT_GIANT (3)` if giant). -/
theorem resolveContact_impulse (bp bv pp : Vec3) (pvx pvy pvz : ℚ) (g : Bool)
    (dist relSpeed playerSpeed : ℚ)
    (_hdist : dist * dist
        = (bp.x - pp.x) * (bp.x - pp.x) + (bp.y - pp.y) * (bp.y - pp.y) +
          (bp.z - pp.z) * (bp.z - pp.z) ∧ 0 ≤ dist)
    (hcontact : (bp.x - pp.x) * (bp.x - pp.x) + (bp.y - pp.y) * (bp.y - pp.y) +
          (bp.z - pp.z) * (bp.z - pp.z)
        < (PHYSICS.BALL_RADIUS + playerRadiusOf g) * (PHYSICS.BALL_RADIUS + playerRadiusOf g))
    (hnostab : ¬ ((bp.y - pp.y > PHYSICS.BALL_STABILITY_HEIGHT_MIN ∧
          (bp.y - pp.y) / (if dist = 0 then 0.1 else dist) > 0.5) ∧
        relSpeed < PHYSICS.BALL_STABILITY_VELOCITY_THRESHOLD)) :
    (let d := if dist = 0 then 0.1 else dist
     let nx := (bp.x - pp.x) / d
     let ny := (bp.y - pp.y) / d
     let nz := (bp.z - pp.z) / d
     let approachSpeed := (pvx - bv.x) * nx + (pvy - bv.y) * ny + (pvz - bv.z) * nz
     let momentumFactor := if playerSpeed > PHYSICS.COLLISION_VELOCITY_THRESHOLD
       then (playerSpeed / 8) * PHYSICS.PLAYER_BALL_VELOCITY_TRANSFER else 0.5
     let approachBoost := if (pvx * nx + pvz * nz) / (playerSpeed + 0.001) > 0.5
       then PHYSICS.PLAYER_BALL_APPROACH_BOOST else 1.0
     let impulseMag0 := approachSpeed * PHYSICS.BALL_MASS *
       (1 + PHYSICS.PLAYER_BALL_RESTITUTION) * momentumFactor * approachBoost
     let impulseMag := if bp.y - pp.y > PHYSICS.BALL_STABILITY_HEIGHT_MIN ∧ ny > 0.5
       then min impulseMag0 (PHYSICS.BALL_STABILITY_IMPULSE_CAP * playerSpeed)
       else max PHYSICS.PLAYER_BALL_IMPULSE_MIN impulseMag0
     let lift := if g then PHYSICS.COLLISION_LIFT_GIANT else PHYSICS.COLLISION_LIFT
     (approachSpeed ≤ 0 →
        resolveContact bp bv pp pvx pvy pvz g dist relSpeed playerSpeed
          = ContactAction.noAction) ∧
     (approachSpeed > 0 →
        resolveContact bp bv pp pvx pvy pvz g dist relSpeed playerSpeed
          = ContactAction.impulse
              ⟨nx * impulseMag, max 0.5 (ny * impulseMag) + lift, nz * impulseMag⟩)) := by
  constructor
  · intro hle
    simp only [resolveContact]
    rw [if_pos hcontact, if_neg hnostab, if_neg (not_lt.mpr hle)]
  · intro hgt
    simp only [resolveContact]
    rw [if_pos hcontact, if_neg hnostab, if_pos hgt]

/-- **C8 (amended), witness.** A player backing away from a touching ball
(`approachSpeed < 0`): no impulse is applied. -/
theorem resolveContact_impulse_witness :
    resolveContact ⟨12/10, 0, 0⟩ ⟨0, 0, 0⟩ ⟨0, 0, 0⟩ (-1) 0 0 false (12/10) 1 1
      = ContactAction.noAction := by
  have h := resolveContact_impulse ⟨12/10, 0, 0⟩ ⟨0, 0, 0⟩ ⟨0, 0, 0⟩ (-1) 0 0 false
    (12/10) 1 1
    (by constructor <;> norm_num)
    (by simp only [PHYSICS.BALL_RADIUS, playerRadiusOf, PHYSICS.PLAYER_RADIUS]; norm_num)
    (by
      rintro ⟨⟨hdy, -⟩, -⟩
      simp only [PHYSICS.BALL_STABILITY_HEIGHT_MIN] at hdy
      norm_num at hdy)
  exact h.1 (by
    rw [if_neg (by norm_num : ¬ ((12:ℚ)/10 = 0))]
    norm_num)

/-- The impulse as the spec's contact-resolver section states it, with its
own constants: `momentumFactor` built from a velocity-transfer factor of
0.7, a minimum impulse of 8, and a lift of 8 (10 when giant).  Used only to
compare the stated formula against `resolveContact`. -/
def specClaimImpulseC8 (ballPos ballVel playerPos : Vec3) (pvx pvy pvz : ℚ)
    (giant : Bool) (dist playerSpeed : ℚ) : Vec3 :=
  let d := if dist = 0 then 0.1 else dist
  let nx := (ballPos.x - playerPos.x) / d
  let ny := (ballPos.y - playerPos.y) / d
  let nz := (ballPos.z - playerPos.z) / d
  let approachSpeed := (pvx - ballVel.x) * nx + (pvy - ballVel.y) * ny + (pvz - ballVel.z) * nz
  let momentumFactor := if playerSpeed > 3 then (playerSpeed / 8) * 0.7 else 0.5
  let approachBoost := if (pvx * nx + pvz * nz) / (playerSpeed + 0.001) > 0.5 then 1.4 else 1.0
  let impulseMag0 := approachSpeed * PHYSICS.BALL_MASS * (1 + 0.85) * momentumFactor * approachBoost
  let impulseMag := if ballPos.y - playerPos.y > PHYSICS.BALL_STABILITY_HEIGHT_MIN ∧ ny > 0.5
    then min impulseMag0 (2.0 * playerSpeed)
    else max 8 impulseMag0
  let lift := if giant then (10 : ℚ) else 8
  ⟨nx * impulseMag, max 0.5 (ny * impulseMag) + lift, nz * impulseMag⟩

/-- **C8, counterexample.** A player running at 4 m/s into the ball: the
code applies the impulse `(10.101, 5.5, 0)` (transfer 0.65, minimum 5,
lift 5) while the claim's formula (transfer 0.7, minimum 8, lift 8) yields
`(10.878, 8.5, 0)`. -/
theorem resolveContact_impulse_counterexample :
    resolveContact ⟨12/10, 0, 0⟩ ⟨0, 0, 0⟩ ⟨0, 0, 0⟩ 4 0 0 false (12/10) 4 4
      = ContactAction.impulse ⟨10101/1000, 11/2, 0⟩ ∧
    specClaimImpulseC8 ⟨12/10, 0, 0⟩ ⟨0, 0, 0⟩ ⟨0, 0, 0⟩ 4 0 0 false (12/10) 4
      = ⟨10878/1000, 17/2, 0⟩ ∧
    (⟨10101/1000, 11/2, 0⟩ : Vec3) ≠ ⟨10878/1000, 17/2, 0⟩ := by
  refine ⟨?_, ?_, ?_⟩
  · have h := resolveContact_impulse ⟨12/10, 0, 0⟩ ⟨0, 0, 0⟩ ⟨0, 0, 0⟩ 4 0 0 false
      (12/10) 4 4
      (by constructor <;> norm_num)
      (by simp only [PHYSICS.BALL_RADIUS, playerRadiusOf, PHYSICS.PLAYER_RADIUS]; norm_num)
      (by
        rintro ⟨⟨hdy, -⟩, -⟩
        simp only [PHYSICS.BALL_STABILITY_HEIGHT_MIN] at hdy
        norm_num at hdy)
    have h2 := h.2 (by
      rw [if_neg (by norm_num : ¬ ((12:ℚ)/10 = 0))]
      norm_num)
    rw [h2]
    rw [if_neg (by norm_num : ¬ ((12:ℚ)/10 = 0))]
    simp only [PHYSICS.COLLISION_VELOCITY_THRESHOLD, PHYSICS.PLAYER_BALL_VELOCITY_TRANSFER,
      PHYSICS.PLAYER_BALL_APPROACH_BOOST, PHYSICS.BALL_MASS, PHYSICS.PLAYER_BALL_RESTITUTION,
      PHYSICS.BALL_STABILITY_HEIGHT_MIN, PHYSICS.BALL_STABILITY_IMPULSE_CAP,
      PHYSICS.PLAYER_BALL_IMPULSE_MIN, PHYSICS.COLLISION_LIFT, PHYSICS.COLLISION_LIFT_GIANT]
    norm_num

  · simp only [specClaimImpulseC8]
    rw [if_neg (by norm_num : ¬ ((12:ℚ)/10 = 0))]
    simp only [PHYSICS.BALL_MASS, PHYSICS.BALL_STABILITY_HEIGHT_MIN]
    norm_num
  · intro hcon
    have := congrArg Vec3.x hcon
    norm_num at this

end Soccer
